import Mathlib

/-
Verification of the postfix-blocker reconciliation core against its
natural-language specification.  The Python modules under
`postfix_blocker/` are shallowly embedded below:

  * `models/entries.py`            → `BlockEntry`
  * `postfix/maps.py`              → `partitionEntries`, `fileContent`, `write_map_files`
  * `postfix/control.py`           → `reloadMta` (models `reload_postfix`)
  * `services/blocker_service.py`  → `get_change_marker`, `computeSig`, `serviceStep`
  * `blocker.py` (legacy loop)     → `monitorStep`

File writes are modelled as pure state transformation on the four file
contents; subprocess calls and database queries are modelled as oracles
supplied in an environment record, with `none`/failure constructors standing
for raised exceptions at the corresponding call sites.
-/

namespace PfBlocker

/-- One block rule, as in `models/entries.py` (`BlockEntry` dataclass):
a pattern string, a regex flag and a test-mode flag. -/
structure BlockEntry where
  pattern : String
  is_regex : Bool
  test_mode : Bool
deriving DecidableEq

/-- Rendering of a literal (non-regex) entry, from `maps.py`:
`line_lit = f'{entry.pattern}\tREJECT'`. -/
def renderLiteral (e : BlockEntry) : String :=
  e.pattern ++ "\t" ++ "REJECT"

/-- Rendering of a regex entry, from `maps.py`:
`line_re = f'/{entry.pattern}/ REJECT'`. -/
def renderRegex (e : BlockEntry) : String :=
  "/" ++ e.pattern ++ "/ REJECT"

/-- The four bucket lists built by the loop in `write_map_files`
(`literal_lines`, `regex_lines`, `test_literal_lines`, `test_regex_lines`). -/
structure MapLines where
  literal_lines : List String
  regex_lines : List String
  test_literal_lines : List String
  test_regex_lines : List String
deriving DecidableEq

/-- The partition loop of `write_map_files` (`maps.py`, lines 31-43): each
entry is rendered once and appended to exactly one of the four bucket lists,
selected by `test_mode` then `is_regex`.  The recursion conses the head
entry's line in front of the lines of the remaining entries, preserving the
append order of the Python loop. -/
def partitionEntries : List BlockEntry → MapLines
  | [] => ⟨[], [], [], []⟩
  | e :: rest =>
    let m := partitionEntries rest
    if e.test_mode then
      if e.is_regex then
        { m with test_regex_lines := renderRegex e :: m.test_regex_lines }
      else
        { m with test_literal_lines := renderLiteral e :: m.test_literal_lines }
    else
      if e.is_regex then
        { m with regex_lines := renderRegex e :: m.regex_lines }
      else
        { m with literal_lines := renderLiteral e :: m.literal_lines }

/-- Python `'\n'.join(lines)`: the lines interleaved with single newlines. -/
def joinNl : List String → String
  | [] => ""
  | [l] => l
  | l :: ls => l ++ "\n" ++ joinNl ls

/-- The byte content written for one bucket by `write_map_files`:
`'\n'.join(lines) + ('\n' if lines else '')`. -/
def fileContent (lines : List String) : String :=
  joinNl lines ++ (if lines.isEmpty then "" else "\n")

/-- The four output files (contents of `blocked_recipients`,
`blocked_recipients.pcre`, `blocked_recipients_test`,
`blocked_recipients_test.pcre` under the configured directory). -/
structure MapFS where
  blocked_recipients : String
  blocked_recipients_pcre : String
  blocked_recipients_test : String
  blocked_recipients_test_pcre : String
deriving DecidableEq

/-- `write_map_files` from `maps.py`: each of the four files is opened with
mode `'w'` (truncate) and receives the joined bucket content, so the
resulting file state replaces the previous one wholesale; `prev` is the file
state before the call and is discarded by the truncating open. -/
def write_map_files (prev : MapFS) (entries : List BlockEntry) : MapFS :=
  { blocked_recipients := fileContent (partitionEntries entries).literal_lines
    blocked_recipients_pcre := fileContent (partitionEntries entries).regex_lines
    blocked_recipients_test := fileContent (partitionEntries entries).test_literal_lines
    blocked_recipients_test_pcre := fileContent (partitionEntries entries).test_regex_lines }

/-- Number of newline characters in a string.  Every complete line of the
written files is terminated by a newline, so this is the number of physical
lines of a written file. -/
def countNl (s : String) : Nat :=
  s.data.count '\n'

/-- Whether a string ends with a newline character. -/
def endsWithNl (s : String) : Bool :=
  s.data.getLast? == some '\n'

/-- Total number of physical lines across the four files written for an
entry list. -/
def totalFileLines (entries : List BlockEntry) : Nat :=
  countNl (fileContent (partitionEntries entries).literal_lines)
    + countNl (fileContent (partitionEntries entries).regex_lines)
    + countNl (fileContent (partitionEntries entries).test_literal_lines)
    + countNl (fileContent (partitionEntries entries).test_regex_lines)

/-- Number of tab characters in a string (for the literal map field format). -/
def countTab (s : String) : Nat :=
  s.data.count '\t'

/-- Number of slash characters in a string (for the regex map delimiters). -/
def countSlash (s : String) : Nat :=
  s.data.count '/'

/-- Lexicographic comparison of character lists by code point, as Python
compares strings. -/
def charListLt : List Char → List Char → Bool
  | [], [] => false
  | [], _ :: _ => true
  | _ :: _, [] => false
  | a :: as, b :: bs =>
    if a.toNat < b.toNat then true
    else if b.toNat < a.toNat then false
    else charListLt as bs

/-- Python string `<`: code-point lexicographic order. -/
def strLt (a b : String) : Bool :=
  charListLt a.data b.data

/-- Python `False < True` on booleans. -/
def boolLt (a b : Bool) : Bool :=
  !a && b

/-- One element of the content signature: the `(pattern, is_regex, test_mode)`
tuple taken per entry in `run_forever` / `monitor_loop`. -/
abbrev SigKey := String × Bool × Bool

/-- The tuple `(e.pattern, bool(e.is_regex), bool(e.test_mode))` from the
signature comprehension. -/
def entryKey (e : BlockEntry) : SigKey :=
  (e.pattern, e.is_regex, e.test_mode)

/-- Python tuple `<=` on signature keys: lexicographic over the string and
the two booleans. -/
def keyLe (x y : SigKey) : Bool :=
  strLt x.1 y.1
    || (x.1 == y.1
      && (boolLt x.2.1 y.2.1
        || (x.2.1 == y.2.1 && (boolLt x.2.2 y.2.2 || x.2.2 == y.2.2))))

/-- Ordered insertion used by `sortBy`. -/
def insertSorted (le : SigKey → SigKey → Bool) (x : SigKey) : List SigKey → List SigKey
  | [] => [x]
  | y :: ys => if le x y then x :: y :: ys else y :: insertSorted le x ys

/-- Model of Python `sorted` on signature keys (insertion sort).  `keyLe` is a
total order on keys, so the sorted output is unique and any correct sorting
algorithm, in particular CPython's, produces this same list. -/
def sortBy (le : SigKey → SigKey → Bool) : List SigKey → List SigKey
  | [] => []
  | x :: xs => insertSorted le x (sortBy le xs)

/-- The content signature of `run_forever` (`blocker_service.py` line 141)
and `monitor_loop` (`blocker.py` line 567):
`sig = tuple(sorted((e.pattern, bool(e.is_regex), bool(e.test_mode)) for e in entries))`.
The loop stores `hash(sig)`; the hash is modelled by the signature itself,
i.e. hash collisions between distinct signatures are ignored. -/
def computeSig (entries : List BlockEntry) : List SigKey :=
  sortBy keyLe (entries.map entryKey)

/-- The change marker `(str(max(updated_at)), count(*))`: the stringified
maximum timestamp and the row count. -/
abbrev Marker := String × Nat

/-- The in-memory fingerprint state of the steady loop: `last_marker` and
`last_hash` (both `None` before the first pass). -/
structure LoopState where
  last_marker : Option Marker
  last_hash : Option (List SigKey)
deriving DecidableEq

/-- The initial steady-state fingerprint: `last_marker = None`,
`last_hash = None` (`blocker_service.py` lines 105-106). -/
def initialState : LoopState :=
  ⟨none, none⟩

/-- The database and filesystem behaviour visible to one steady-loop
iteration: the value returned by `_get_change_marker` (`none` when the
marker query failed and the helper returned `None`), the outcome of the
full-entry fetch (`none` when `_fetch_entries` raised), and whether
`write_map_files` completes without raising. -/
structure IterEnv where
  marker : Option Marker
  fetchResult : Option (List BlockEntry)
  writeOk : Bool
deriving DecidableEq

/-- Which externally visible calls one iteration performed: whether the
full-entry fetch was issued, whether the Map Writer wrote the map files, and
whether the MTA Controller (`reload_postfix`) was invoked. -/
structure IterTrace where
  didFetch : Bool
  didWrite : Bool
  didReload : Bool
deriving DecidableEq

/-- The update condition of `run_forever` (`blocker_service.py` line 145):
`(marker is not None and marker != last_marker) or (current_hash != last_hash)`. -/
def serviceFire (marker last_marker : Option Marker) (sig : List SigKey)
    (last_hash : Option (List SigKey)) : Bool :=
  (marker.isSome && decide (marker ≠ last_marker)) || decide (some sig ≠ last_hash)

/-- One steady-state iteration of `run_forever` (`blocker_service.py` lines
135-160): compute the marker, always fetch the entries, compute the
signature hash, and when the update condition holds call `write_map_files`
then `reload_postfix` and only then update `last_marker`/`last_hash`.  Any
exception (fetch failure, write failure) is caught by the surrounding
`except` clauses (lines 161-164) and leaves the fingerprint state unchanged. -/
def serviceStep (s : LoopState) (env : IterEnv) : LoopState × IterTrace :=
  match env.fetchResult with
  | none => (s, ⟨true, false, false⟩)
  | some entries =>
    let sig := computeSig entries
    if serviceFire env.marker s.last_marker sig s.last_hash then
      if env.writeOk then
        ({ last_marker := env.marker, last_hash := some sig }, ⟨true, true, true⟩)
      else (s, ⟨true, false, false⟩)
    else (s, ⟨true, false, false⟩)

/-- The update condition of `monitor_loop` (`blocker.py` lines 571-573):
`(marker is not None and marker != last_marker) or (marker is None and current_hash != last_hash)`. -/
def monitorFire (marker last_marker : Option Marker) (sig : List SigKey)
    (last_hash : Option (List SigKey)) : Bool :=
  (marker.isSome && decide (marker ≠ last_marker))
    || (marker.isNone && decide (some sig ≠ last_hash))

/-- One steady-state iteration of the legacy `monitor_loop` (`blocker.py`
lines 540-577): when the marker is available and unchanged the iteration
skips the fetch entirely (lines 542-549); otherwise it fetches, computes the
signature and applies the `monitorFire` condition, with the same
caught-exception state preservation as `serviceStep`. -/
def monitorStep (s : LoopState) (env : IterEnv) : LoopState × IterTrace :=
  if env.marker.isSome && decide (env.marker = s.last_marker) then
    (s, ⟨false, false, false⟩)
  else
    match env.fetchResult with
    | none => (s, ⟨true, false, false⟩)
    | some entries =>
      let sig := computeSig entries
      if monitorFire env.marker s.last_marker sig s.last_hash then
        if env.writeOk then
          ({ last_marker := env.marker, last_hash := some sig }, ⟨true, true, true⟩)
        else (s, ⟨true, false, false⟩)
      else (s, ⟨true, false, false⟩)

/-- The reconciliation trigger as the specification words it (§4.1): the
pass fires when (a) the marker is available and differs from the last-seen
marker, or (b) the marker is unavailable and the content hash differs from
the last-seen hash. -/
def specFire (marker last_marker : Option Marker) (sig : List SigKey)
    (last_hash : Option (List SigKey)) : Prop :=
  (marker ≠ none ∧ marker ≠ last_marker) ∨ (marker = none ∧ some sig ≠ last_hash)

instance specFireDecidable (marker last_marker : Option Marker) (sig : List SigKey)
    (last_hash : Option (List SigKey)) :
    Decidable (specFire marker last_marker sig last_hash) := by
  unfold specFire
  exact inferInstance

/-- `_get_change_marker` (`blocker_service.py` lines 56-66) and
`get_change_marker` (`blocker.py` lines 296-313): the aggregate query
returns `(max(updated_at), count(*))`; on success the marker is
`(str(max_ts) if max_ts is not None else '', int(cnt or 0))`; any exception
is caught and `None` is returned.  The query outcome is the oracle `q`:
`none` models a raised exception, `some (maxTs, cnt)` a returned row with
optional aggregate values (the timestamp is modelled by its stringified
form). -/
def get_change_marker (q : Option (Option String × Option Nat)) : Option Marker :=
  match q with
  | none => none
  | some (maxTs, cnt) =>
    some ((match maxTs with | some t => t | none => ""),
      (match cnt with | some c => c | none => 0))

/-- Outcome of one external command invocation in `control.py`: either the
process ran and returned an exit code, or launching it raised (missing
binary, spawn failure). -/
inductive CmdOutcome where
  | ran (rc : Int)
  | raiseLaunch
deriving DecidableEq

/-- True when the command launched (did not raise). -/
def CmdOutcome.launched : CmdOutcome → Bool
  | .ran _ => true
  | .raiseLaunch => false

/-- The external world seen by one `reload_postfix` call (`control.py`):
outcomes of `postmap` on the enforce and test literal files, of
`postfix status` and of `postfix reload`, plus the `stat` sizes of the two
literal files (`none` models a raised `stat`). -/
structure ReloadEnv where
  postmapLit : CmdOutcome
  postmapTest : CmdOutcome
  statusCmd : CmdOutcome
  reloadCmd : CmdOutcome
  sizeLit : Option Int
  sizeTest : Option Int
deriving DecidableEq

/-- Which subprocess invocations one `reload_postfix` call attempted and
whether any warning was logged.  The operation itself never raises: its
entire body is wrapped in `try/except` whose handler only logs. -/
structure ReloadTrace where
  ranPostmapLit : Bool
  ranPostmapTest : Bool
  ranStatus : Bool
  ranReload : Bool
  warned : Bool
deriving DecidableEq

/-- `reload_postfix` from `control.py` (lines 32-82): run `postmap` on the
enforce literal file then on the test literal file (a launch failure of
either aborts to the outer handler, which logs a warning); `stat` the two
files with `-1` fallback; run `postfix status` inside its own handler that
maps a launch failure to exit code 1; invoke `postfix reload` only when the
status exit code is 0 (a reload launch failure again falls to the outer
handler); finally log a warning if any completed command returned a
non-zero exit code. -/
def reloadMta (env : ReloadEnv) : ReloadTrace :=
  match env.postmapLit with
  | .raiseLaunch => ⟨true, false, false, false, true⟩
  | .ran rc1 =>
    match env.postmapTest with
    | .raiseLaunch => ⟨true, true, false, false, true⟩
    | .ran rc1b =>
      let status_rc : Int := match env.statusCmd with | .ran rc => rc | .raiseLaunch => 1
      if status_rc = 0 then
        match env.reloadCmd with
        | .raiseLaunch => ⟨true, true, true, true, true⟩
        | .ran rc2 =>
          ⟨true, true, true, true, (rc1 != 0) || (rc1b != 0) || (rc2 != 0)⟩
      else
        ⟨true, true, true, false, (rc1 != 0) || (rc1b != 0)⟩

end PfBlocker

namespace PfBlocker

theorem countNl_append (a b : String) : countNl (a ++ b) = countNl a + countNl b := by
  simp [countNl, String.data_append, List.count_append]

theorem fileContent_nil : fileContent [] = "" := rfl

theorem fileContent_cons (l : String) (ls : List String) :
    fileContent (l :: ls) = l ++ "\n" ++ fileContent ls := by
  cases ls with
  | nil =>
    show joinNl [l] ++ "\n" = l ++ "\n" ++ ("" ++ "")
    simp only [joinNl, String.append_empty]
  | cons l2 ls2 =>
    show joinNl (l :: l2 :: ls2) ++ "\n" = l ++ "\n" ++ (joinNl (l2 :: ls2) ++ "\n")
    simp only [joinNl, String.append_assoc]

theorem countNl_newline : countNl "\n" = 1 := rfl

theorem countNl_fileContent (lines : List String) :
    countNl (fileContent lines) = (lines.map (fun l => countNl l + 1)).sum := by
  induction lines with
  | nil => rfl
  | cons l ls ih =>
    rw [fileContent_cons, countNl_append, countNl_append, countNl_newline, ih]
    simp [List.map_cons, List.sum_cons]

theorem countNl_renderLiteral (e : BlockEntry) :
    countNl (renderLiteral e) = countNl e.pattern := by
  have h1 : countNl "\t" = 0 := rfl
  have h2 : countNl "REJECT" = 0 := rfl
  rw [renderLiteral, countNl_append, countNl_append, h1, h2]
  omega

theorem countNl_renderRegex (e : BlockEntry) :
    countNl (renderRegex e) = countNl e.pattern := by
  have h1 : countNl "/" = 0 := rfl
  have h2 : countNl "/ REJECT" = 0 := rfl
  rw [renderRegex, countNl_append, countNl_append, h1, h2]
  omega

theorem countNl_fileContent_cons (l : String) (ls : List String) :
    countNl (fileContent (l :: ls)) = countNl l + 1 + countNl (fileContent ls) := by
  rw [fileContent_cons, countNl_append, countNl_append, countNl_newline]

theorem countTab_append (a b : String) : countTab (a ++ b) = countTab a + countTab b := by
  simp [countTab, String.data_append, List.count_append]

theorem countSlash_append (a b : String) : countSlash (a ++ b) = countSlash a + countSlash b := by
  simp [countSlash, String.data_append, List.count_append]

/-- Line accounting for the four written files: every entry contributes one
line plus one extra line for every newline character embedded in its
pattern (patterns are embedded verbatim, with no escaping). -/
theorem totalFileLines_eq (entries : List BlockEntry) :
    totalFileLines entries
      = entries.length + (entries.map (fun e => countNl e.pattern)).sum := by
  induction entries with
  | nil => rfl
  | cons e rest ih =>
    unfold totalFileLines at ih ⊢
    simp only [partitionEntries]
    by_cases ht : e.test_mode <;> by_cases hr : e.is_regex <;>
      simp only [ht, hr, if_true, if_false] <;>
      simp [countNl_fileContent_cons, countNl_renderLiteral, countNl_renderRegex,
        List.map_cons, List.sum_cons] <;>
      omega

theorem insertSorted_perm (le : SigKey → SigKey → Bool) (x : SigKey) (l : List SigKey) :
    (insertSorted le x l).Perm (x :: l) := by
  induction l with
  | nil => simp [insertSorted]
  | cons y ys ih =>
    by_cases h : le x y = true
    · simp [insertSorted, h]
    · simp only [insertSorted, h, if_false]
      exact (ih.cons y).trans (List.Perm.swap x y ys)

theorem sortBy_perm (le : SigKey → SigKey → Bool) (l : List SigKey) :
    (sortBy le l).Perm l := by
  induction l with
  | nil => simp [sortBy]
  | cons x xs ih => exact (insertSorted_perm le x (sortBy le xs)).trans (ih.cons x)

theorem computeSig_perm (entries : List BlockEntry) :
    (computeSig entries).Perm (entries.map entryKey) :=
  sortBy_perm keyLe (entries.map entryKey)

theorem computeSig_eq_perm {a b : List BlockEntry} (h : computeSig a = computeSig b) :
    (a.map entryKey).Perm (b.map entryKey) := by
  have h1 := (computeSig_perm a).symm
  have h2 := computeSig_perm b
  rw [h] at h1
  exact h1.trans h2

theorem entryKey_inj {e e' : BlockEntry} (h : entryKey e = entryKey e') : e = e' := by
  cases e with
  | mk p r t =>
    cases e' with
    | mk p' r' t' =>
      simp only [entryKey, Prod.mk.injEq] at h
      obtain ⟨h1, h2, h3⟩ := h
      simp [h1, h2, h3]

theorem serviceFire_iff (marker last_marker : Option Marker) (sig : List SigKey)
    (last_hash : Option (List SigKey)) :
    serviceFire marker last_marker sig last_hash = true
      ↔ ((marker ≠ none ∧ marker ≠ last_marker) ∨ some sig ≠ last_hash) := by
  simp [serviceFire, Option.isSome_iff_ne_none]

theorem monitorFire_iff (marker last_marker : Option Marker) (sig : List SigKey)
    (last_hash : Option (List SigKey)) :
    monitorFire marker last_marker sig last_hash = true
      ↔ specFire marker last_marker sig last_hash := by
  simp [monitorFire, specFire, Option.isSome_iff_ne_none, Option.isNone_iff_eq_none]

theorem serviceStep_trace (s : LoopState) (marker : Option Marker)
    (entries : List BlockEntry) (w : Bool) :
    (serviceStep s ⟨marker, some entries, w⟩).2
      = if serviceFire marker s.last_marker (computeSig entries) s.last_hash
          then (if w then ⟨true, true, true⟩ else ⟨true, false, false⟩)
          else ⟨true, false, false⟩ := by
  unfold serviceStep
  by_cases hf : serviceFire marker s.last_marker (computeSig entries) s.last_hash = true
  · cases w <;> simp [hf]
  · simp [hf]

theorem monitorStep_didWrite_iff (s : LoopState) (marker : Option Marker)
    (entries : List BlockEntry) :
    ((monitorStep s ⟨marker, some entries, true⟩).2.didWrite = true)
      ↔ specFire marker s.last_marker (computeSig entries) s.last_hash := by
  unfold monitorStep
  by_cases hskip : (marker.isSome && decide (marker = s.last_marker)) = true
  · simp only [hskip, if_true]
    simp only [Bool.and_eq_true, decide_eq_true_eq, Option.isSome_iff_ne_none] at hskip
    obtain ⟨hm, heq⟩ := hskip
    rw [heq] at hm
    simp [specFire, heq, hm]
  · simp only [hskip, Bool.false_eq_true, if_false]
    by_cases hf : monitorFire marker s.last_marker (computeSig entries) s.last_hash = true
    · simp [hf, (monitorFire_iff _ _ _ _).mp hf]
    · simp only [hf, Bool.false_eq_true, if_false]
      rw [monitorFire_iff] at hf
      simp [hf]

theorem monitorStep_reload_eq_write (s : LoopState) (env : IterEnv) :
    (monitorStep s env).2.didReload = (monitorStep s env).2.didWrite := by
  unfold monitorStep
  split
  · rfl
  · cases henv : env.fetchResult with
    | none => rfl
    | some entries =>
      simp only []
      split
      · split <;> rfl
      · rfl

theorem serviceStep_reload_eq_write (s : LoopState) (env : IterEnv) :
    (serviceStep s env).2.didReload = (serviceStep s env).2.didWrite := by
  unfold serviceStep
  cases henv : env.fetchResult with
  | none => rfl
  | some entries =>
    simp only []
    split
    · split <;> rfl
    · rfl

/-- Claim C1 (counterexample).  In `run_forever` the content-hash fallback is
not gated on marker unavailability: with the marker available and equal to
the last-seen marker but the entry signature differing from the last-seen
hash, the iteration writes the map files, although condition (a) or (b) of
the claim does not hold. -/
theorem c1_counterexample :
    ((serviceStep ⟨some ("t", 1), some []⟩
        ⟨some ("t", 1), some [⟨"a", false, false⟩], true⟩).2.didWrite = true)
    ∧ ¬ specFire (some ("t", 1)) (some ("t", 1))
        (computeSig [⟨"a", false, false⟩]) (some []) := by
  constructor
  · decide
  · decide

/-- Claim C1 (amended): in `monitor_loop` a reconciliation pass fires exactly
when (a) the marker is available and differs from the last-seen marker or
(b) the marker is unavailable and the content hash differs from the
last-seen hash; in `run_forever` it fires exactly when the marker is
available and differs, or the content hash differs regardless of marker
availability.  In every other iteration neither the Map Writer nor the MTA
Controller is invoked (the reload flag equals the write flag in every
iteration of both loops). -/
theorem c1_fire_condition :
    ∀ (s : LoopState) (env : IterEnv) (entries : List BlockEntry),
      env.fetchResult = some entries → env.writeOk = true →
      (((monitorStep s env).2.didWrite = true
          ↔ specFire env.marker s.last_marker (computeSig entries) s.last_hash)
        ∧ ((serviceStep s env).2.didWrite = true
          ↔ ((env.marker ≠ none ∧ env.marker ≠ s.last_marker)
              ∨ some (computeSig entries) ≠ s.last_hash))
        ∧ (monitorStep s env).2.didReload = (monitorStep s env).2.didWrite
        ∧ (serviceStep s env).2.didReload = (serviceStep s env).2.didWrite) := by
  intro s env entries hf hw
  refine ⟨?_, ?_, monitorStep_reload_eq_write s env, serviceStep_reload_eq_write s env⟩
  · cases env with
    | mk marker fetch w =>
      cases hf
      cases hw
      exact monitorStep_didWrite_iff s marker entries
  · cases env with
    | mk marker fetch w =>
      cases hf
      cases hw
      rw [show (serviceStep s ⟨marker, some entries, true⟩).2
            = if serviceFire marker s.last_marker (computeSig entries) s.last_hash
                then ⟨true, true, true⟩ else ⟨true, false, false⟩ by
            rw [serviceStep_trace]; split <;> rfl]
      by_cases hfi : serviceFire marker s.last_marker (computeSig entries) s.last_hash = true
      · simp [hfi, (serviceFire_iff _ _ _ _).mp hfi]
      · simp only [hfi, Bool.false_eq_true, if_false]
        rw [serviceFire_iff] at hfi
        simp [hfi]

/-- Claim C1 (witness): the amended fire-condition theorem instantiated at
the initial state with an available marker and one entry. -/
theorem c1_witness :
    (monitorStep initialState ⟨some ("t", 1), some [⟨"a", false, false⟩], true⟩).2.didWrite = true
      ↔ specFire (some ("t", 1)) none (computeSig [⟨"a", false, false⟩]) none :=
  (c1_fire_condition initialState ⟨some ("t", 1), some [⟨"a", false, false⟩], true⟩
    [⟨"a", false, false⟩] rfl rfl).1

theorem partitionEntries_literal (entries : List BlockEntry) :
    (partitionEntries entries).literal_lines
      = (entries.filter (fun e => !e.test_mode && !e.is_regex)).map renderLiteral := by
  induction entries with
  | nil => rfl
  | cons e rest ih =>
    by_cases ht : e.test_mode <;> by_cases hr : e.is_regex <;>
      simp [partitionEntries, List.filter_cons, ht, hr, ih]

theorem partitionEntries_regex (entries : List BlockEntry) :
    (partitionEntries entries).regex_lines
      = (entries.filter (fun e => !e.test_mode && e.is_regex)).map renderRegex := by
  induction entries with
  | nil => rfl
  | cons e rest ih =>
    by_cases ht : e.test_mode <;> by_cases hr : e.is_regex <;>
      simp [partitionEntries, List.filter_cons, ht, hr, ih]

theorem partitionEntries_test_literal (entries : List BlockEntry) :
    (partitionEntries entries).test_literal_lines
      = (entries.filter (fun e => e.test_mode && !e.is_regex)).map renderLiteral := by
  induction entries with
  | nil => rfl
  | cons e rest ih =>
    by_cases ht : e.test_mode <;> by_cases hr : e.is_regex <;>
      simp [partitionEntries, List.filter_cons, ht, hr, ih]

theorem partitionEntries_test_regex (entries : List BlockEntry) :
    (partitionEntries entries).test_regex_lines
      = (entries.filter (fun e => e.test_mode && e.is_regex)).map renderRegex := by
  induction entries with
  | nil => rfl
  | cons e rest ih =>
    by_cases ht : e.test_mode <;> by_cases hr : e.is_regex <;>
      simp [partitionEntries, List.filter_cons, ht, hr, ih]

/-- Claim C2 (counterexample): the files do not contain exactly one line per
entry for every entry list — a single non-regex enforce entry whose pattern
embeds a newline yields two physical lines in `blocked_recipients`. -/
theorem c2_counterexample :
    totalFileLines [⟨"a\nb", false, false⟩]
      ≠ ([⟨"a\nb", false, false⟩] : List BlockEntry).length := by
  decide

/-- Claim C2 (amended): provided no pattern contains a newline character, the
four output files together contain exactly one line per entry; each entry is
routed to exactly the one bucket selected by its `(is_regex, test_mode)`
pair, a non-regex entry rendering as pattern, tab, `REJECT` and a regex
entry as slash, pattern, slash, space, `REJECT`. -/
theorem c2_partition :
    ∀ (entries : List BlockEntry),
      ((partitionEntries entries).literal_lines
          = (entries.filter (fun e => !e.test_mode && !e.is_regex)).map renderLiteral)
      ∧ ((partitionEntries entries).regex_lines
          = (entries.filter (fun e => !e.test_mode && e.is_regex)).map renderRegex)
      ∧ ((partitionEntries entries).test_literal_lines
          = (entries.filter (fun e => e.test_mode && !e.is_regex)).map renderLiteral)
      ∧ ((partitionEntries entries).test_regex_lines
          = (entries.filter (fun e => e.test_mode && e.is_regex)).map renderRegex)
      ∧ ((∀ e ∈ entries, countNl e.pattern = 0)
          → totalFileLines entries = entries.length)
      ∧ (∀ e : BlockEntry, renderLiteral e = e.pattern ++ "\t" ++ "REJECT"
          ∧ renderRegex e = "/" ++ e.pattern ++ "/ REJECT") := by
  intro entries
  refine ⟨partitionEntries_literal entries, partitionEntries_regex entries,
    partitionEntries_test_literal entries, partitionEntries_test_regex entries,
    ?_, fun e => ⟨rfl, rfl⟩⟩
  intro hnl
  rw [totalFileLines_eq]
  have hz : (entries.map (fun e => countNl e.pattern)).sum = 0 := by
    apply List.sum_eq_zero
    intro x hx
    obtain ⟨e, he, hex⟩ := List.mem_map.mp hx
    rw [← hex]
    exact hnl e he
  omega

/-- Claim C2 (witness): the amended partition theorem instantiated at a
two-entry list with newline-free patterns. -/
theorem c2_witness :
    totalFileLines [⟨"a@x.com", false, false⟩, ⟨".*@y.com", true, true⟩]
      = ([⟨"a@x.com", false, false⟩, ⟨".*@y.com", true, true⟩] : List BlockEntry).length :=
  (c2_partition [⟨"a@x.com", false, false⟩, ⟨".*@y.com", true, true⟩]).2.2.2.2.1
    (by decide)

theorem endsWithNl_fileContent_cons (l : String) (ls : List String) :
    endsWithNl (fileContent (l :: ls)) = true := by
  show ((joinNl (l :: ls) ++ "\n").data.getLast? == some '\n') = true
  rw [String.data_append]
  have h : ("\n" : String).data = ['\n'] := rfl
  rw [h, List.getLast?_concat]
  rfl

theorem endsWithNl_fileContent (lines : List String) :
    (endsWithNl (fileContent lines) = true) ↔ lines ≠ [] := by
  cases lines with
  | nil =>
    constructor
    · intro h
      exact absurd h (by decide)
    · intro h
      exact absurd rfl h
  | cons l ls =>
    constructor
    · intro _
      exact List.cons_ne_nil l ls
    · intro _
      exact endsWithNl_fileContent_cons l ls

/-- Claim C3: the Map Writer rewrites each of the four files in full — the
resulting file state does not depend on the previous contents; a file ends
with a trailing newline exactly when its bucket received at least one line;
and an empty entry list produces four empty (zero-byte) files. -/
theorem c3_full_rewrite :
    ∀ (prev prev2 : MapFS) (entries : List BlockEntry),
      (write_map_files prev entries = write_map_files prev2 entries)
      ∧ (endsWithNl (write_map_files prev entries).blocked_recipients = true
          ↔ (partitionEntries entries).literal_lines ≠ [])
      ∧ (endsWithNl (write_map_files prev entries).blocked_recipients_pcre = true
          ↔ (partitionEntries entries).regex_lines ≠ [])
      ∧ (endsWithNl (write_map_files prev entries).blocked_recipients_test = true
          ↔ (partitionEntries entries).test_literal_lines ≠ [])
      ∧ (endsWithNl (write_map_files prev entries).blocked_recipients_test_pcre = true
          ↔ (partitionEntries entries).test_regex_lines ≠ [])
      ∧ (write_map_files prev [] = ⟨"", "", "", ""⟩) := by
  intro prev prev2 entries
  exact ⟨rfl, endsWithNl_fileContent _, endsWithNl_fileContent _,
    endsWithNl_fileContent _, endsWithNl_fileContent _, rfl⟩

/-- Claim C3 (witness): the full-rewrite theorem instantiated at two
distinct previous file states and a one-entry list, showing the outputs
coincide. -/
theorem c3_witness :
    write_map_files ⟨"old1", "old2", "old3", "old4"⟩ [⟨"a", false, false⟩]
      = write_map_files ⟨"", "", "", ""⟩ [⟨"a", false, false⟩] :=
  (c3_full_rewrite ⟨"old1", "old2", "old3", "old4"⟩ ⟨"", "", "", ""⟩
    [⟨"a", false, false⟩]).1

/-- Claim C10: patterns are embedded verbatim with no escaping or
validation.  The exact line accounting is
`lines = entries + newlines-in-patterns`, so the one-line-per-entry
invariant holds only when no pattern contains a newline: any entry list
with a newline-carrying pattern breaks it, and a singleton bucket file for
such an entry has more than one line.  A tab in a non-regex pattern adds to
the tab count of the rendered line (altering its two-field structure), and
a slash in a regex pattern adds to the slash count (altering the delimiter
structure). -/
theorem c10_verbatim_patterns :
    ∀ (entries : List BlockEntry) (e : BlockEntry),
      (totalFileLines entries
        = entries.length + (entries.map (fun x => countNl x.pattern)).sum)
      ∧ ((∃ x ∈ entries, countNl x.pattern ≠ 0)
          → totalFileLines entries ≠ entries.length)
      ∧ (countNl e.pattern ≠ 0 → 1 < totalFileLines [e])
      ∧ (countTab (renderLiteral e) = countTab e.pattern + 1)
      ∧ (countSlash (renderRegex e) = countSlash e.pattern + 2) := by
  intro entries e
  refine ⟨totalFileLines_eq entries, ?_, ?_, ?_, ?_⟩
  · intro hex
    obtain ⟨x, hx, hnz⟩ := hex
    have hmem : countNl x.pattern ∈ entries.map (fun y => countNl y.pattern) :=
      List.mem_map_of_mem _ hx
    have hle : countNl x.pattern ≤ (entries.map (fun y => countNl y.pattern)).sum :=
      List.single_le_sum (fun _ _ => Nat.zero_le _) _ hmem
    rw [totalFileLines_eq]
    omega
  · intro hnz
    have h := totalFileLines_eq [e]
    simp [List.map_cons, List.sum_cons] at h
    omega
  · have h1 : countTab "\t" = 1 := rfl
    have h2 : countTab "REJECT" = 0 := rfl
    rw [renderLiteral, countTab_append, countTab_append, h1, h2]
  · have h1 : countSlash "/" = 1 := rfl
    have h2 : countSlash "/ REJECT" = 1 := rfl
    rw [renderRegex, countSlash_append, countSlash_append, h1, h2]
    omega

/-- Claim C10 (witness): a pattern with an embedded newline produces more
than one physical line for its single entry. -/
theorem c10_witness :
    1 < totalFileLines [⟨"a\nb", false, false⟩] :=
  (c10_verbatim_patterns [⟨"a\nb", false, false⟩] ⟨"a\nb", false, false⟩).2.2.1
    (by decide)

theorem serviceStep_state (s : LoopState) (marker : Option Marker)
    (entries : List BlockEntry) (w : Bool) :
    (serviceStep s ⟨marker, some entries, w⟩).1
      = if (serviceFire marker s.last_marker (computeSig entries) s.last_hash && w)
          then ⟨marker, some (computeSig entries)⟩ else s := by
  unfold serviceStep
  by_cases hf : serviceFire marker s.last_marker (computeSig entries) s.last_hash = true
  · cases w <;> simp [hf]
  · rw [Bool.not_eq_true] at hf
    simp [hf]

/-- Claim C4: any fetch or write failure during a `run_forever` iteration is
caught: the step is a total function whose resulting fingerprint state is
the unchanged previous state whenever the fetch raised or the map write
raised, and the state is replaced only in iterations in which both the Map
Writer and the MTA Controller calls completed. -/
theorem c4_error_preserves_state :
    ∀ (s : LoopState) (env : IterEnv),
      (env.fetchResult = none → serviceStep s env = (s, ⟨true, false, false⟩))
      ∧ (env.writeOk = false → (serviceStep s env).1 = s)
      ∧ ((serviceStep s env).1 ≠ s →
          ((serviceStep s env).2.didWrite = true
            ∧ (serviceStep s env).2.didReload = true ∧ env.writeOk = true)) := by
  intro s env
  obtain ⟨marker, fetch, w⟩ := env
  refine ⟨?_, ?_, ?_⟩
  · intro h
    cases h
    rfl
  · intro h
    cases h
    cases fetch with
    | none => rfl
    | some entries =>
      rw [serviceStep_state]
      simp
  · intro hne
    cases fetch with
    | none => exact absurd rfl hne
    | some entries =>
      rw [serviceStep_state] at hne
      by_cases hc : (serviceFire marker s.last_marker (computeSig entries) s.last_hash
          && w) = true
      · rw [serviceStep_trace]
        simp only [Bool.and_eq_true] at hc
        simp [hc.1, hc.2]
      · exfalso
        apply hne
        rw [if_neg hc]

/-- Claim C4 (witness): with a failing write the fingerprint state is left
unchanged. -/
theorem c4_witness :
    (serviceStep initialState ⟨some ("t", 1), some [⟨"a", false, false⟩], false⟩).1
      = initialState :=
  (c4_error_preserves_state initialState
    ⟨some ("t", 1), some [⟨"a", false, false⟩], false⟩).2.1 rfl

/-- Claim C5 (counterexample): in `run_forever` the full entry snapshot is
fetched even in an iteration whose marker is available and equal to the
last-seen marker, contradicting the claim that no fetch occurs then. -/
theorem c5_counterexample :
    ¬ ((serviceStep ⟨some ("t", 1), some []⟩
        ⟨some ("t", 1), some [], true⟩).2.didFetch = false) := by
  decide

/-- Claim C5 (amended): the legacy `monitor_loop` skips the full fetch in
every iteration whose marker is available and equals the last-seen marker,
while `run_forever` issues the full fetch unconditionally on every
iteration. -/
theorem c5_fetch_behavior :
    ∀ (s : LoopState) (env : IterEnv),
      (env.marker.isSome = true → env.marker = s.last_marker →
        (monitorStep s env).2.didFetch = false)
      ∧ (serviceStep s env).2.didFetch = true := by
  intro s env
  constructor
  · intro hm heq
    have hcond : (env.marker.isSome && decide (env.marker = s.last_marker)) = true := by
      rw [heq] at hm
      simp [hm, heq]
    unfold monitorStep
    rw [if_pos hcond]
  · unfold serviceStep
    cases henv : env.fetchResult with
    | none => rfl
    | some entries =>
      simp only []
      split
      · split <;> rfl
      · rfl

/-- Claim C5 (witness): the amended fetch-behaviour theorem instantiated at
a state whose marker matches the environment's marker. -/
theorem c5_witness :
    (monitorStep ⟨some ("t", 1), none⟩ ⟨some ("t", 1), some [], true⟩).2.didFetch
      = false :=
  (c5_fetch_behavior ⟨some ("t", 1), none⟩ ⟨some ("t", 1), some [], true⟩).1 rfl rfl

/-- Claim C6: `reload_postfix` always attempts the map-compiler on the
enforce literal file, attempts it on the test literal file exactly when the
first launch succeeded, invokes the MTA reload exactly when both compiler
launches succeeded and the status command exited 0, and logs a warning on
launch failures — the operation is a total function and never raises to its
caller. -/
theorem c6_reload_best_effort :
    ∀ (env : ReloadEnv),
      ((reloadMta env).ranReload = true
        ↔ (env.postmapLit.launched = true ∧ env.postmapTest.launched = true
            ∧ env.statusCmd = CmdOutcome.ran 0))
      ∧ (reloadMta env).ranPostmapLit = true
      ∧ ((reloadMta env).ranPostmapTest = env.postmapLit.launched)
      ∧ (env.postmapLit = CmdOutcome.raiseLaunch → (reloadMta env).warned = true)
      ∧ (env.postmapLit.launched = true → env.postmapTest = CmdOutcome.raiseLaunch
          → (reloadMta env).warned = true) := by
  intro env
  obtain ⟨pl, pt, st, rl, s1, s2⟩ := env
  cases pl with
  | raiseLaunch => simp [reloadMta, CmdOutcome.launched]
  | ran rc1 =>
    cases pt with
    | raiseLaunch => simp [reloadMta, CmdOutcome.launched]
    | ran rc1b =>
      cases st with
      | raiseLaunch =>
        simp [reloadMta, CmdOutcome.launched]
      | ran rcs =>
        by_cases h0 : rcs = (0 : Int)
        · subst h0
          cases rl <;> simp [reloadMta, CmdOutcome.launched]
        · simp [reloadMta, CmdOutcome.launched, h0]

/-- Claim C6 (witness): a launch failure of the first map-compiler call is
caught and surfaces only as a logged warning. -/
theorem c6_witness :
    (reloadMta ⟨CmdOutcome.raiseLaunch, CmdOutcome.ran 0, CmdOutcome.ran 0,
      CmdOutcome.ran 0, none, none⟩).warned = true :=
  (c6_reload_best_effort ⟨CmdOutcome.raiseLaunch, CmdOutcome.ran 0, CmdOutcome.ran 0,
    CmdOutcome.ran 0, none, none⟩).2.2.2.1 rfl

/-- Claim C7: the marker operation returns the aggregate marker — the
stringified maximum `updated_at` (empty string when the aggregate is NULL)
paired with the row count — when the query succeeds, and returns `None`
instead of raising on any query error. -/
theorem c7_marker_contract :
    ∀ (q : Option (Option String × Option Nat)),
      (∀ ts cnt, q = some (ts, cnt)
        → get_change_marker q = some (ts.getD "", cnt.getD 0))
      ∧ (q = none → get_change_marker q = none) := by
  intro q
  constructor
  · intro ts cnt h
    subst h
    cases ts <;> cases cnt <;> rfl
  · intro h
    subst h
    rfl

/-- Claim C7 (witness): the marker contract instantiated at a successful
query with a NULL aggregate timestamp. -/
theorem c7_witness :
    get_change_marker (some (none, some 3)) = some ((none : Option String).getD "",
      (some 3 : Option Nat).getD 0) :=
  (c7_marker_contract (some (none, some 3))).1 none (some 3) rfl

/-- Claim C8: from the initial steady state (`last_marker = None`,
`last_hash = None`) the first iteration always performs a full
reconciliation pass — it calls the Map Writer and the MTA Controller and
installs the fresh fingerprint — for every fetched entry list (including
the empty one) and every marker value, available or not. -/
theorem c8_first_pass_always_fires :
    ∀ (env : IterEnv) (entries : List BlockEntry),
      env.fetchResult = some entries → env.writeOk = true →
      ((serviceStep initialState env).2.didWrite = true
        ∧ (serviceStep initialState env).2.didReload = true
        ∧ (serviceStep initialState env).1
            = ⟨env.marker, some (computeSig entries)⟩) := by
  intro env entries hf hw
  obtain ⟨marker, fetch, w⟩ := env
  cases hf
  cases hw
  have hfire : serviceFire marker initialState.last_marker (computeSig entries)
      initialState.last_hash = true := by
    simp [serviceFire, initialState]
  refine ⟨?_, ?_, ?_⟩
  · rw [serviceStep_trace, if_pos hfire]
    rfl
  · rw [serviceStep_trace, if_pos hfire]
    rfl
  · rw [serviceStep_state, hfire]
    rfl

/-- Claim C8 (witness): the first iteration fires even with an unavailable
marker and an empty table. -/
theorem c8_witness :
    (serviceStep initialState ⟨none, some [], true⟩).2.didWrite = true :=
  (c8_first_pass_always_fires ⟨none, some [], true⟩ [] rfl rfl).1

/-- Claim C9: the content signature — the sorted
`(pattern, is_regex, test_mode)` tuples whose hash the loop stores —
changes under every single mutation of the entry list: adding an entry
(equivalently, removing one, read right to left) and editing any field of
an entry both change the signature. -/
theorem c9_fingerprint_sensitivity :
    ∀ (l1 l2 : List BlockEntry) (e e2 : BlockEntry),
      computeSig (l1 ++ e :: l2) ≠ computeSig (l1 ++ l2)
      ∧ (e ≠ e2 → computeSig (l1 ++ e :: l2) ≠ computeSig (l1 ++ e2 :: l2)) := by
  intro l1 l2 e e2
  constructor
  · intro h
    have hp := computeSig_eq_perm h
    have hl := hp.length_eq
    simp [List.length_map, List.length_append] at hl
  · intro hne h
    have hp := computeSig_eq_perm h
    have hk : entryKey e ≠ entryKey e2 := fun hk => hne (entryKey_inj hk)
    have hc := List.Perm.countP_eq (fun k => decide (k = entryKey e)) hp
    rw [List.map_append, List.map_append, List.map_cons, List.map_cons,
      List.countP_append, List.countP_append, List.countP_cons, List.countP_cons] at hc
    simp [Ne.symm hk] at hc

/-- Claim C9 (witness): adding an entry and editing an entry's pattern both
change the signature of a concrete one-entry list. -/
theorem c9_witness :
    computeSig ([] ++ (⟨"a", false, false⟩ : BlockEntry) :: []) ≠ computeSig ([] ++ [])
    ∧ computeSig ([] ++ (⟨"a", false, false⟩ : BlockEntry) :: [])
        ≠ computeSig ([] ++ (⟨"b", false, false⟩ : BlockEntry) :: []) :=
  ⟨(c9_fingerprint_sensitivity [] [] ⟨"a", false, false⟩ ⟨"b", false, false⟩).1,
   (c9_fingerprint_sensitivity [] [] ⟨"a", false, false⟩ ⟨"b", false, false⟩).2
     (by decide)⟩

end PfBlocker
